import Mathlib

/-!
Shallow embedding of the reward/progression logic of the classroom-board
single-page application (src/src/App.js).  Profiles, missions and routines
are Firestore documents; we model the document store as functions from
user ids to optional profile records, and each handler as a pure state
transformer.  JavaScript numbers used by this logic are non-negative
integers (xp, gold, level, skill scores), modelled as `Nat`; JavaScript
objects used as string-keyed maps are modelled as association lists.
-/

namespace ClassroomBoard

/-- A profile document.  `lastUpdate` models the serverTimestamp field as a
logical clock value supplied by the caller. -/
structure Profile where
  userId : String
  role : String
  displayName : String
  xp : Nat
  gold : Nat
  level : Nat
  skills : List (String × Nat)
  lastUpdate : Nat
deriving Repr, DecidableEq

/-- The `updates` argument of `updateStudentProfile`: fields may be absent
(JS `undefined`), in which case the code falls back to 0 / no skill change. -/
structure RewardDelta where
  xp : Option Nat
  gold : Option Nat
  skills : Option (List (String × Nat))
deriving Repr, DecidableEq

/-- Reading a skill score: `(skills[key] || 0)`. -/
def lookupSkill : List (String × Nat) → String → Nat
  | [], _ => 0
  | (k₀, v₀) :: rest, k => if k₀ = k then v₀ else lookupSkill rest k

/-- Writing one key of a JS object: replaces the existing binding or appends
a new one, keeping keys unique. -/
def setSkill : List (String × Nat) → String → Nat → List (String × Nat)
  | [], k, v => [(k, v)]
  | (k₀, v₀) :: rest, k, v =>
    if k₀ = k then (k, v) :: rest else (k₀, v₀) :: setSkill rest k v

/-- The loop `for (const skill in updates.skills) newSkills[skill] =
(newSkills[skill] || 0) + (updates.skills[skill] || 0)`. -/
def applySkillDeltas (skills : List (String × Nat)) : List (String × Nat) → List (String × Nat)
  | [] => skills
  | (k, inc) :: rest => applySkillDeltas (setSkill skills k (lookupSkill skills k + inc)) rest

/-- Firestore `setDoc(..., \x7bmerge:true\x7d)` on a nested map field: every key
of the written payload overwrites the stored value, keys absent from the
payload are preserved. -/
def mergeSkillMaps (old : List (String × Nat)) (payload : List (String × Nat)) :
    List (String × Nat) :=
  payload.foldl (fun acc kv => setSkill acc kv.1 kv.2) old

/-- Fuel-indexed unfolding of the loop `while (newXP >= newLevel * 100)
newLevel++`.  Fuel `xp + 1` always suffices (the loop leaves `level` once
`level * 100 > xp`). -/
def levelUpAux : Nat → Nat → Nat → Nat
  | 0, _, level => level
  | fuel + 1, xp, level =>
    if level * 100 ≤ xp then levelUpAux fuel xp (level + 1) else level

/-- The leveling loop of `updateStudentProfile`. -/
def levelUp (xp level : Nat) : Nat :=
  levelUpAux (xp + 1) xp level

/-- The pure core of `updateStudentProfile` (lines 262-282 of App.js):
given the current document data and the reward delta, compute the updated
profile.  `currentData.level || 1` is modelled by mapping level 0 to 1. -/
def applyReward (currentData : Profile) (updates : RewardDelta) (now : Nat) : Profile :=
  let newXP := currentData.xp + updates.xp.getD 0
  let newGold := currentData.gold + updates.gold.getD 0
  let startLevel := if currentData.level = 0 then 1 else currentData.level
  let newLevel := levelUp newXP startLevel
  let newSkills :=
    match updates.skills with
    | none => currentData.skills
    | some ds => applySkillDeltas currentData.skills ds
  { currentData with
      xp := newXP, gold := newGold, level := newLevel,
      skills := newSkills, lastUpdate := now }

/-- The profile documents reachable from the progression engine: per-user
private profile and the public teacher-viewable mirror. -/
structure Store where
  privateProfile : String → Option Profile
  publicProfile : String → Option Profile

/-- The function `updateStudentProfile(db, userIdToUpdate, updates, updaterId)`:
reads the private document when the updater is the owner and the public
mirror otherwise; a missing source document is a logged no-op; otherwise
the updated profile is written to the public mirror always, and to the
private document only when the updater is the owner.  Errors are caught
and logged inside the function, so the transformer is total and never
propagates a failure to the caller. -/
def updateStudentProfile (store : Store) (userIdToUpdate : String)
    (updates : RewardDelta) (updaterId : String) (now : Nat) : Store :=
  let source :=
    if userIdToUpdate = updaterId then store.privateProfile userIdToUpdate
    else store.publicProfile userIdToUpdate
  match source with
  | none => store
  | some currentData =>
    let updatedProfile := applyReward currentData updates now
    let withPublic : Store :=
      { store with
          publicProfile := fun u =>
            if u = userIdToUpdate then some updatedProfile else store.publicProfile u }
    if userIdToUpdate = updaterId then
      { withPublic with
          privateProfile := fun u =>
            if u = userIdToUpdate then some updatedProfile else store.privateProfile u }
    else withPublic

/-- A mission document. -/
structure Mission where
  id : String
  studentId : String
  title : String
  type : String
  description : String
  rewardXp : Nat
  rewardGold : Nat
  isCompleted : Bool
  isPendingApproval : Bool
  isStudentRewarded : Bool
deriving Repr, DecidableEq

/-- The skill-delta lookup of `processRewards`: `\x7b "책임감": 5 \x7d`, plus
`문해력: 10` for 읽기/쓰기 missions, else `수리력: 10` for 수리/문제풀이. -/
def missionSkillUpdates (missionType : String) : List (String × Nat) :=
  if missionType = "읽기" ∨ missionType = "쓰기" then
    [("책임감", 5), ("문해력", 10)]
  else if missionType = "수리" ∨ missionType = "문제풀이" then
    [("책임감", 5), ("수리력", 10)]
  else
    [("책임감", 5)]

/-- The reward delta a settled mission passes to `updateStudentProfile`. -/
def missionDelta (m : Mission) : RewardDelta :=
  { xp := some m.rewardXp, gold := some m.rewardGold,
    skills := some (missionSkillUpdates m.type) }

/-- Combined state seen by the student dashboard effect: the profile store
plus the student's mission documents. -/
structure AppState where
  store : Store
  missions : List Mission

/-- One iteration of the `processRewards` loop body: apply the mission's
reward through the progression engine, then set `isStudentRewarded: true`
on the mission document. -/
def settleMission (st : AppState) (userId : String) (m : Mission) (now : Nat) : AppState :=
  let store1 := updateStudentProfile st.store userId (missionDelta m) userId now
  let missions1 := st.missions.map fun m₀ =>
    if m₀.id = m.id then { m₀ with isStudentRewarded := true } else m₀
  { store := store1, missions := missions1 }

/-- The effect `processRewards` (App.js lines 334-355): settle every mission with
`isCompleted && !isStudentRewarded`. -/
def processRewards (st : AppState) (userId : String) (now : Nat) : AppState :=
  let missionsToReward := st.missions.filter fun m => m.isCompleted && !m.isStudentRewarded
  missionsToReward.foldl (fun acc m => settleMission acc userId m now) st

/-- One HTTP response as seen by `callGeminiAPIWithExponentialBackoff`:
a non-success status (whose parsed error body yields a message), a body
that fails to parse as JSON, a parsed body missing
`candidates[0].content.parts[0].text`, or a success carrying that text. -/
inductive ApiResponse where
  | httpError (status : Nat) (errMsg : String)
  | malformedBody
  | missingContent
  | ok (text : String)
deriving Repr, DecidableEq

/-- The try-block of one attempt: either the extracted text or the thrown
error message. -/
def attemptOutcome : ApiResponse → Except String String
  | .httpError status errMsg =>
    .error ("API call failed: " ++ toString status ++ " - " ++ errMsg)
  | .malformedBody => .error "malformed response body"
  | .missingContent => .error "Invalid Gemini API response structure."
  | .ok t => .ok t

/-- The retry loop, recursing on the number of remaining iterations
(`fuel = retries - i`).  `responses i` is the response of attempt `i`.
Returns the loop's result (`none` models falling off the loop and
returning `null`, which never happens for 3 retries) together with the
list of backoff delays actually slept. -/
def attemptLoop (responses : Nat → ApiResponse) :
    Nat → Nat → Nat → List Nat → Option (Except String String) × List Nat
  | 0, _, _, delays => (none, delays)
  | fuel + 1, i, delay, delays =>
    match attemptOutcome (responses i) with
    | .ok t => (some (.ok t), delays)
    | .error e =>
      if fuel = 0 then (some (.error e), delays)
      else attemptLoop responses fuel (i + 1) (delay * 2) (delays ++ [delay])

/-- The wrapper `callGeminiAPIWithExponentialBackoff` (App.js lines 161-193):
`retries = 3`, `delay = 1000`, doubling after each failed non-final
attempt, rethrowing the final attempt's error. -/
def callGeminiAPIWithExponentialBackoff (responses : Nat → ApiResponse) :
    Option (Except String String) × List Nat :=
  attemptLoop responses 3 0 1000 []

/-- A custom-routine document.  `completedDays` is the per-calendar-date
completion map (date string → boolean). -/
structure Routine where
  id : String
  title : String
  days : List String
  time : String
  completedDays : List (String × Bool)
deriving Repr, DecidableEq

/-- Reading `!!completedDays?.[dateString]`: lookup defaulting to false. -/
def lookupDay : List (String × Bool) → String → Bool
  | [], _ => false
  | (d₀, b₀) :: rest, d => if d₀ = d then b₀ else lookupDay rest d

/-- Writing one date key of the completion map. -/
def setDay : List (String × Bool) → String → Bool → List (String × Bool)
  | [], d, b => [(d, b)]
  | (d₀, b₀) :: rest, d, b =>
    if d₀ = d then (d, b) :: rest else (d₀, b₀) :: setDay rest d b

/-- The fixed skill reward of a routine completed for the first time on a
given date: `\x7b "자기 주도 학습 능력": 10, "책임감": 5 \x7d`. -/
def routineToggleReward : List (String × Nat) :=
  [("자기 주도 학습 능력", 10), ("책임감", 5)]

/-- The handler `handleToggleTodaysRoutineCompletion` (App.js lines 431-439): writes
`completedDays[todayDateString] = isNowChecked` on the routine document,
and grants the fixed skill reward through the progression engine exactly
when `isNowChecked && !wasCompletedToday`. -/
def handleToggleTodaysRoutineCompletion (store : Store) (userId : String)
    (routine : Routine) (isNowChecked : Bool) (todayDateString : String)
    (now : Nat) : Store × Routine :=
  let wasCompletedToday := lookupDay routine.completedDays todayDateString
  let routine1 :=
    { routine with completedDays := setDay routine.completedDays todayDateString isNowChecked }
  let store1 :=
    if isNowChecked && !wasCompletedToday then
      updateStudentProfile store userId
        { xp := none, gold := none, skills := some routineToggleReward } userId now
    else store
  (store1, routine1)

/-- The hardcoded student account table (name → numeric code). -/
def studentAccounts : List (String × String) :=
  [("김대수", "1024"), ("김주한", "0623"), ("김차영", "0630"), ("김태린", "0609"),
   ("김혜지", "1029"), ("안준희", "1207"), ("인선우", "1010"), ("정군", "0420"),
   ("정유이", "0609"), ("최지음", "0820"), ("박초", "1022")]

/-- The hardcoded teacher account table. -/
def teacherAccounts : List (String × String) :=
  [("교사", "5555")]

/-- The credential check at the top of `login`: student table first, then
teacher table, else failure. -/
def loginRole (inputID inputPassword : String) : Option String :=
  if studentAccounts.lookup inputID = some inputPassword then some "student"
  else if teacherAccounts.lookup inputID = some inputPassword then some "teacher"
  else none

/-- The `initialSkills` object written at login. -/
def initialSkills : List (String × Nat) :=
  [("문해력", 0), ("수리력", 0), ("창의력", 0), ("책임감", 0),
   ("문제 해결 능력", 0), ("자기 주도 학습 능력", 0)]

/-- The call `setDoc(ref, payload, \x7bmerge:true\x7d)` for the login payload
`\x7buserId, role, displayName, xp:0, gold:0, level:1, skills\x7d`:
every top-level field of the payload overwrites the stored field, the
nested skills map is merged key-by-key, and stored fields absent from the
payload (here the update timestamp of the private copy) are preserved.
`payloadLastUpdate = some now` models the public-mirror payload, which
additionally carries `lastUpdate: serverTimestamp()`. -/
def mergeLoginPayload (old : Option Profile) (uid inputID role : String)
    (payloadLastUpdate : Option Nat) : Profile :=
  match old with
  | none =>
    { userId := uid, role := role, displayName := inputID,
      xp := 0, gold := 0, level := 1, skills := initialSkills,
      lastUpdate := payloadLastUpdate.getD 0 }
  | some o =>
    { userId := uid, role := role, displayName := inputID,
      xp := 0, gold := 0, level := 1,
      skills := mergeSkillMaps o.skills initialSkills,
      lastUpdate := payloadLastUpdate.getD o.lastUpdate }

/-- The function `login` (App.js lines 109-141): on a credential match, merge-write the
initial profile payload over the private profile document and, for
students, over the public mirror; on a mismatch return the failure.
`uid` is the anonymous Firebase uid of the session. -/
def login (store : Store) (uid inputID inputPassword : String) (now : Nat) :
    Option (String × Store) :=
  match loginRole inputID inputPassword with
  | none => none
  | some role =>
    let priv := mergeLoginPayload (store.privateProfile uid) uid inputID role none
    let store1 : Store :=
      { store with
          privateProfile := fun u => if u = uid then some priv else store.privateProfile u }
    if role = "student" then
      let pub := mergeLoginPayload (store1.publicProfile uid) uid inputID role (some now)
      some (role,
        { store1 with
            publicProfile := fun u => if u = uid then some pub else store1.publicProfile u })
    else
      some (role, store1)

/-- The reward delta granted on a first completion of a routine for a date. -/
def routineDelta : RewardDelta :=
  { xp := none, gold := none, skills := some routineToggleReward }

/-- Running a sequence of routine toggles (checkbox value and timestamp)
against the same date key, threading the routine document snapshot the UI
would observe after each write. -/
def toggleSeq (store : Store) (uid : String) (r : Routine) (today : String) :
    List (Bool × Nat) → Store × Routine
  | [] => (store, r)
  | (b, now) :: rest =>
    let next := handleToggleTodaysRoutineCompletion store uid r b today now
    toggleSeq next.1 uid next.2 today rest

/-! Concrete sample documents used to instantiate the theorems below. -/

/-- A sample student profile document. -/
def sampleProfile : Profile :=
  ⟨"s1", "student", "김대수", 95, 20, 1, [("문해력", 3)], 0⟩

/-- A store holding `sampleProfile` under user id `s1` in both copies. -/
def sampleStore : Store :=
  ⟨fun u => if u = "s1" then some sampleProfile else none,
   fun u => if u = "s1" then some sampleProfile else none⟩

/-- An empty store: no profile documents exist. -/
def emptyStore : Store :=
  ⟨fun _ => none, fun _ => none⟩

/-- A completed, not-yet-rewarded reading mission for student `s1`. -/
def sampleMission : Mission :=
  ⟨"m1", "s1", "책 읽기", "읽기", "책 한 권 읽기", 10, 5, true, false, false⟩

/-- The dashboard state holding the sample store and the sample mission. -/
def sampleState : AppState :=
  ⟨sampleStore, [sampleMission]⟩

/-- A sample routine with no completion recorded yet. -/
def sampleRoutine : Routine :=
  ⟨"r1", "줄넘기", ["월", "수"], "오후 3시", []⟩

/-- A stubbed response sequence that fails twice and then succeeds. -/
def sampleResponses : Nat → ApiResponse :=
  fun i => if i = 0 then .httpError 500 "overloaded"
    else if i = 1 then .malformedBody
    else .ok "generated text"

/-- A stubbed response sequence that always fails. -/
def failingResponses : Nat → ApiResponse :=
  fun _ => .missingContent

/-- A store whose user `u1` already accumulated xp, gold, level and skill
scores, for exercising the login reset behaviour. -/
def accumulatedStore : Store :=
  ⟨fun u => if u = "u1" then some ⟨"u1", "student", "김대수", 500, 300, 3, [("문해력", 40)], 9⟩
    else none,
   fun u => if u = "u1" then some ⟨"u1", "student", "김대수", 500, 300, 3, [("문해력", 40)], 9⟩
    else none⟩

/-! Helper lemmas about the association-list maps and the leveling loop. -/

theorem lookupSkill_setSkill (s : List (String × Nat)) (k k' : String) (v : Nat) :
    lookupSkill (setSkill s k v) k' = if k = k' then v else lookupSkill s k' := by
  induction s with
  | nil => simp [setSkill, lookupSkill]
  | cons hd tl ih =>
    obtain ⟨k₀, v₀⟩ := hd
    simp only [setSkill]
    by_cases h : k₀ = k
    · subst h
      by_cases h' : k₀ = k' <;> simp [lookupSkill, h']
    · simp only [if_neg h, lookupSkill]
      by_cases h' : k₀ = k'
      · subst h'
        simp [lookupSkill, Ne.symm h]
      · simp [lookupSkill, h', ih]

theorem lookupDay_setDay (cd : List (String × Bool)) (d d' : String) (b : Bool) :
    lookupDay (setDay cd d b) d' = if d = d' then b else lookupDay cd d' := by
  induction cd with
  | nil => simp [setDay, lookupDay]
  | cons hd tl ih =>
    obtain ⟨d₀, b₀⟩ := hd
    simp only [setDay]
    by_cases h : d₀ = d
    · subst h
      by_cases h' : d₀ = d' <;> simp [lookupDay, h']
    · simp only [if_neg h, lookupDay]
      by_cases h' : d₀ = d'
      · subst h'
        simp [lookupDay, Ne.symm h]
      · simp [lookupDay, h', ih]

theorem lookupSkill_le_applySkillDeltas (ds : List (String × Nat)) (s : List (String × Nat))
    (k : String) : lookupSkill s k ≤ lookupSkill (applySkillDeltas s ds) k := by
  induction ds generalizing s with
  | nil => simp [applySkillDeltas]
  | cons hd tl ih =>
    obtain ⟨k₀, inc⟩ := hd
    simp only [applySkillDeltas]
    refine le_trans ?_ (ih (setSkill s k₀ (lookupSkill s k₀ + inc)))
    rw [lookupSkill_setSkill]
    by_cases h : k₀ = k
    · subst h; simp
    · simp [h]

theorem lookupSkill_applySkillDeltas_not_mem (ds : List (String × Nat))
    (s : List (String × Nat)) (k : String) :
    k ∉ ds.map Prod.fst → lookupSkill (applySkillDeltas s ds) k = lookupSkill s k := by
  induction ds generalizing s with
  | nil => intro _; simp [applySkillDeltas]
  | cons hd tl ih =>
    intro h
    obtain ⟨k₀, inc⟩ := hd
    simp only [List.map_cons, List.mem_cons, not_or] at h
    simp only [applySkillDeltas]
    rw [ih _ h.2, lookupSkill_setSkill, if_neg (fun hh => h.1 hh.symm)]

theorem lookupSkill_applySkillDeltas_mem (ds : List (String × Nat))
    (s : List (String × Nat)) (k : String) (inc : Nat) :
    (ds.map Prod.fst).Nodup → (k, inc) ∈ ds →
    lookupSkill (applySkillDeltas s ds) k = lookupSkill s k + inc := by
  induction ds generalizing s with
  | nil => intro _ h; cases h
  | cons hd tl ih =>
    intro hnd hmem
    obtain ⟨k₀, inc₀⟩ := hd
    simp only [List.map_cons, List.nodup_cons] at hnd
    simp only [applySkillDeltas]
    rcases List.mem_cons.mp hmem with heq | hmem'
    · injection heq with hk hi
      subst hk; subst hi
      rw [lookupSkill_applySkillDeltas_not_mem tl _ k hnd.1,
        lookupSkill_setSkill, if_pos rfl]
    · have hk : k ≠ k₀ := by
        intro hkk
        exact hnd.1 (hkk ▸ List.mem_map_of_mem Prod.fst hmem')
      rw [ih _ hnd.2 hmem', lookupSkill_setSkill, if_neg (fun hh => hk hh.symm)]

theorem levelUpAux_ge (fuel xp level : Nat) : level ≤ levelUpAux fuel xp level := by
  induction fuel generalizing level with
  | zero => simp [levelUpAux]
  | succ n ih =>
    simp only [levelUpAux]
    split
    · exact le_trans (Nat.le_succ level) (ih (level + 1))
    · exact le_refl level

theorem levelUpAux_exit (fuel xp level : Nat) :
    xp < level + fuel → xp < levelUpAux fuel xp level * 100 := by
  induction fuel generalizing level with
  | zero =>
    intro h
    simp only [levelUpAux]
    omega
  | succ n ih =>
    intro h
    simp only [levelUpAux]
    split
    · exact ih (level + 1) (by omega)
    · omega

theorem levelUpAux_invariant (fuel xp level l : Nat) :
    level ≤ l → l < levelUpAux fuel xp level → l * 100 ≤ xp := by
  induction fuel generalizing level with
  | zero =>
    intro h1 h2
    simp only [levelUpAux] at h2
    omega
  | succ n ih =>
    intro h1 h2
    simp only [levelUpAux] at h2
    by_cases hc : level * 100 ≤ xp
    · rw [if_pos hc] at h2
      rcases Nat.eq_or_lt_of_le h1 with rfl | hlt
      · exact hc
      · exact ih (level + 1) hlt h2
    · rw [if_neg hc] at h2
      omega

theorem levelUp_ge (xp level : Nat) : level ≤ levelUp xp level :=
  levelUpAux_ge _ _ _

theorem levelUp_exit (xp level : Nat) : xp < levelUp xp level * 100 :=
  levelUpAux_exit _ _ _ (by omega)

theorem levelUp_invariant (xp level l : Nat) (h1 : level ≤ l)
    (h2 : l < levelUp xp level) : l * 100 ≤ xp :=
  levelUpAux_invariant _ _ _ _ h1 h2

theorem applyReward_xp (p : Profile) (d : RewardDelta) (now : Nat) :
    (applyReward p d now).xp = p.xp + d.xp.getD 0 := rfl

theorem applyReward_gold (p : Profile) (d : RewardDelta) (now : Nat) :
    (applyReward p d now).gold = p.gold + d.gold.getD 0 := rfl

theorem applyReward_level (p : Profile) (d : RewardDelta) (now : Nat) :
    (applyReward p d now).level
      = levelUp (p.xp + d.xp.getD 0) (if p.level = 0 then 1 else p.level) := rfl

theorem applyReward_userId (p : Profile) (d : RewardDelta) (now : Nat) :
    (applyReward p d now).userId = p.userId := rfl

theorem applyReward_role (p : Profile) (d : RewardDelta) (now : Nat) :
    (applyReward p d now).role = p.role := rfl

theorem applyReward_displayName (p : Profile) (d : RewardDelta) (now : Nat) :
    (applyReward p d now).displayName = p.displayName := rfl

theorem applyReward_lastUpdate (p : Profile) (d : RewardDelta) (now : Nat) :
    (applyReward p d now).lastUpdate = now := rfl

theorem applyReward_skills_none (p : Profile) (d : RewardDelta) (now : Nat)
    (h : d.skills = none) : (applyReward p d now).skills = p.skills := by
  simp [applyReward, h]

theorem applyReward_skills_some (p : Profile) (d : RewardDelta) (now : Nat)
    (ds : List (String × Nat)) (h : d.skills = some ds) :
    (applyReward p d now).skills = applySkillDeltas p.skills ds := by
  simp [applyReward, h]

theorem applyReward_level_ge (p : Profile) (d : RewardDelta) (now : Nat) :
    p.level ≤ (applyReward p d now).level := by
  rw [applyReward_level]
  refine le_trans ?_ (levelUp_ge _ _)
  by_cases h : p.level = 0 <;> simp [h]

/-! The claim theorems. -/

/-- Claim C2: the progression update computes `newXp = profile.xp + delta.xp`
(delta.xp defaulting to 0 when absent), `newGold = profile.gold + delta.gold`
(same default), and the new level by starting from `profile.level` and
incrementing the level while `newXp >= level * 100` (stated here as the
loop's exit condition plus its invariant, which determine the result
uniquely); in particular the resulting level is never smaller than the
starting level. -/
theorem progression_xp_gold_level (p : Profile) (d : RewardDelta) (now : Nat) :
    (applyReward p d now).xp = p.xp + d.xp.getD 0 ∧
    (applyReward p d now).gold = p.gold + d.gold.getD 0 ∧
    p.level ≤ (applyReward p d now).level ∧
    (applyReward p d now).xp < (applyReward p d now).level * 100 ∧
    (∀ l, p.level ≤ l → l < (applyReward p d now).level →
      l * 100 ≤ (applyReward p d now).xp) := by
  refine ⟨applyReward_xp p d now, applyReward_gold p d now,
    applyReward_level_ge p d now, ?_, ?_⟩
  · rw [applyReward_level, applyReward_xp]
    exact levelUp_exit _ _
  · intro l h1 h2
    rw [applyReward_level] at h2
    rw [applyReward_xp]
    by_cases h : p.level = 0
    · rcases Nat.eq_zero_or_pos l with rfl | hl
      · simp
      · exact levelUp_invariant _ _ _ (by simp [h]; omega) h2
    · exact levelUp_invariant _ _ _ (by simpa [h] using h1) h2

/-- Witness for C2 at a concrete profile and delta. -/
theorem progression_xp_gold_level_witness :
    (applyReward sampleProfile ⟨some 10, none, none⟩ 7).xp = 95 + 10 ∧
    1 ≤ (applyReward sampleProfile ⟨some 10, none, none⟩ 7).level ∧
    1 * 100 ≤ (applyReward sampleProfile ⟨some 10, none, none⟩ 7).xp :=
  ⟨(progression_xp_gold_level sampleProfile ⟨some 10, none, none⟩ 7).1,
   (progression_xp_gold_level sampleProfile ⟨some 10, none, none⟩ 7).2.2.1,
   (progression_xp_gold_level sampleProfile ⟨some 10, none, none⟩ 7).2.2.2.2
     1 (by decide) (by decide)⟩

/-- Claim C3: a level-1 profile with xp 95 plus a delta of xp 10 yields
xp 105 and level 2; a further delta of xp 100 yields xp 205 and level 3. -/
theorem leveling_scenario :
    (applyReward sampleProfile ⟨some 10, none, none⟩ 1).xp = 105 ∧
    (applyReward sampleProfile ⟨some 10, none, none⟩ 1).level = 2 ∧
    (applyReward (applyReward sampleProfile ⟨some 10, none, none⟩ 1)
      ⟨some 100, none, none⟩ 2).xp = 205 ∧
    (applyReward (applyReward sampleProfile ⟨some 10, none, none⟩ 1)
      ⟨some 100, none, none⟩ 2).level = 3 := by
  refine ⟨rfl, ?_, rfl, ?_⟩ <;> decide

/-- Claim C4: the progression update never decreases level, xp, gold, or
any individual skill score.  Non-negativity of states and deltas is encoded
by the `Nat` domain of every numeric field. -/
theorem applyReward_monotone (p : Profile) (d : RewardDelta) (now : Nat) :
    p.level ≤ (applyReward p d now).level ∧
    p.xp ≤ (applyReward p d now).xp ∧
    p.gold ≤ (applyReward p d now).gold ∧
    ∀ k, lookupSkill p.skills k ≤ lookupSkill (applyReward p d now).skills k := by
  refine ⟨applyReward_level_ge p d now, ?_, ?_, ?_⟩
  · rw [applyReward_xp]; exact Nat.le_add_right _ _
  · rw [applyReward_gold]; exact Nat.le_add_right _ _
  · intro k
    cases hds : d.skills with
    | none => rw [applyReward_skills_none p d now hds]
    | some ds =>
      rw [applyReward_skills_some p d now ds hds]
      exact lookupSkill_le_applySkillDeltas ds p.skills k

/-- Witness for C4 at a concrete profile, delta and skill key. -/
theorem applyReward_monotone_witness :
    1 ≤ (applyReward sampleProfile ⟨some 10, some 5, some [("문해력", 10)]⟩ 7).level ∧
    lookupSkill sampleProfile.skills "문해력"
      ≤ lookupSkill (applyReward sampleProfile
          ⟨some 10, some 5, some [("문해력", 10)]⟩ 7).skills "문해력" :=
  ⟨(applyReward_monotone sampleProfile ⟨some 10, some 5, some [("문해력", 10)]⟩ 7).1,
   (applyReward_monotone sampleProfile ⟨some 10, some 5, some [("문해력", 10)]⟩ 7).2.2.2
     "문해력"⟩

/-- Claim C7: the progression update changes only xp, gold, level, skills
and the update timestamp; identity, role and display name keep their prior
values; within skills, keys absent from the delta keep their prior score
and each key present in the delta (keys being unique, as in a JS object)
becomes its prior score (0 if absent) plus the increment. -/
theorem applyReward_frame (p : Profile) (d : RewardDelta) (now : Nat) :
    (applyReward p d now).userId = p.userId ∧
    (applyReward p d now).role = p.role ∧
    (applyReward p d now).displayName = p.displayName ∧
    (applyReward p d now).lastUpdate = now ∧
    (d.skills = none → (applyReward p d now).skills = p.skills) ∧
    ∀ ds, d.skills = some ds → (ds.map Prod.fst).Nodup →
      (∀ k, k ∉ ds.map Prod.fst →
        lookupSkill (applyReward p d now).skills k = lookupSkill p.skills k) ∧
      (∀ k inc, (k, inc) ∈ ds →
        lookupSkill (applyReward p d now).skills k
          = lookupSkill p.skills k + inc) := by
  refine ⟨applyReward_userId p d now, applyReward_role p d now,
    applyReward_displayName p d now, applyReward_lastUpdate p d now,
    applyReward_skills_none p d now, ?_⟩
  intro ds hds hnd
  rw [applyReward_skills_some p d now ds hds]
  exact ⟨fun k hk => lookupSkill_applySkillDeltas_not_mem ds p.skills k hk,
    fun k inc hmem => lookupSkill_applySkillDeltas_mem ds p.skills k inc hnd hmem⟩

/-- Witness for C7: a concrete delta touching 문해력 leaves identity fields
and the untouched skill 수리력 unchanged, and adds 10 to 문해력. -/
theorem applyReward_frame_witness :
    (applyReward sampleProfile ⟨some 10, none, some [("문해력", 10)]⟩ 7).userId
      = sampleProfile.userId ∧
    lookupSkill (applyReward sampleProfile
        ⟨some 10, none, some [("문해력", 10)]⟩ 7).skills "수리력"
      = lookupSkill sampleProfile.skills "수리력" ∧
    lookupSkill (applyReward sampleProfile
        ⟨some 10, none, some [("문해력", 10)]⟩ 7).skills "문해력"
      = lookupSkill sampleProfile.skills "문해력" + 10 := by
  obtain ⟨hu, -, -, -, -, hsk⟩ :=
    applyReward_frame sampleProfile ⟨some 10, none, some [("문해력", 10)]⟩ 7
  obtain ⟨hnot, hmem⟩ := hsk [("문해력", 10)] rfl (by decide)
  exact ⟨hu, hnot "수리력" (by decide), hmem "문해력" 10 (by decide)⟩

/-- Claim C8: if the source profile document (the private document when the
updater is the owner, the public mirror otherwise) does not exist, the
progression update is a no-op on the store; the embedding of
`updateStudentProfile` is a total function whose every failure path returns
the unchanged store, so nothing is raised to the caller. -/
theorem updateStudentProfile_missing_noop (store : Store) (uid : String)
    (d : RewardDelta) (updater : String) (now : Nat)
    (h : (if uid = updater then store.privateProfile uid
      else store.publicProfile uid) = none) :
    updateStudentProfile store uid d updater now = store := by
  simp only [updateStudentProfile]
  rw [h]

/-- Witness for C8: the empty store is untouched. -/
theorem updateStudentProfile_missing_noop_witness :
    updateStudentProfile emptyStore "s1" ⟨some 10, none, none⟩ "s1" 7 = emptyStore :=
  updateStudentProfile_missing_noop emptyStore "s1" ⟨some 10, none, none⟩ "s1" 7
    (by decide)

/-- Claim C9: on a successful progression update the public mirror is
always written with the updated profile; the private document is written
(with the same updated profile) exactly when the updating actor is the
profile owner, and is left entirely unwritten otherwise. -/
theorem updateStudentProfile_writes (store : Store) (uid updater : String)
    (d : RewardDelta) (now : Nat) (p : Profile)
    (h : (if uid = updater then store.privateProfile uid
      else store.publicProfile uid) = some p) :
    (updateStudentProfile store uid d updater now).publicProfile uid
      = some (applyReward p d now) ∧
    (uid = updater →
      (updateStudentProfile store uid d updater now).privateProfile uid
        = some (applyReward p d now)) ∧
    (uid ≠ updater →
      (updateStudentProfile store uid d updater now).privateProfile
        = store.privateProfile) := by
  by_cases hu : uid = updater
  · subst hu
    rw [if_pos rfl] at h
    refine ⟨?_, fun _ => ?_, fun hn => absurd rfl hn⟩ <;>
      simp [updateStudentProfile, h]
  · rw [if_neg hu] at h
    refine ⟨?_, fun he => absurd he hu, fun _ => ?_⟩ <;>
      simp [updateStudentProfile, hu, h]

/-- Witness for C9: a teacher-triggered update against student `s1` writes
the mirror and leaves the private map untouched. -/
theorem updateStudentProfile_writes_witness :
    (updateStudentProfile sampleStore "s1" ⟨some 10, none, none⟩ "t1" 7).publicProfile "s1"
      = some (applyReward sampleProfile ⟨some 10, none, none⟩ 7) ∧
    (updateStudentProfile sampleStore "s1" ⟨some 10, none, none⟩ "t1" 7).privateProfile
      = sampleStore.privateProfile := by
  obtain ⟨hpub, -, hpriv⟩ :=
    updateStudentProfile_writes sampleStore "s1" "t1" ⟨some 10, none, none⟩ 7
      sampleProfile (by decide)
  exact ⟨hpub, hpriv (by decide)⟩

/-- Claim C1: reward settlement processes exactly the missions with
`isCompleted` and not `isStudentRewarded`; a settled mission contributes a
delta with 책임감 +5 (always), 문해력 +10 for 읽기/쓰기, 수리력 +10 for
수리/문제풀이, together with its rewardXp and rewardGold, and is then
marked `isStudentRewarded`; a second invocation seeing the marked flag
skips it, so the reward is applied exactly once across two sequential
invocations.  Stated for a state holding one qualifying mission, together
with the general skip of every non-qualifying mission. -/
theorem processRewards_settles_once (st : AppState) (uid : String) (m : Mission)
    (p : Profile) (now now' : Nat)
    (hm : st.missions = [m]) (hc : m.isCompleted = true)
    (hr : m.isStudentRewarded = false)
    (hp : st.store.privateProfile uid = some p) :
    (processRewards st uid now).missions = [{ m with isStudentRewarded := true }] ∧
    (processRewards st uid now).store.privateProfile uid
      = some (applyReward p (missionDelta m) now) ∧
    (processRewards st uid now).store.publicProfile uid
      = some (applyReward p (missionDelta m) now) ∧
    lookupSkill (missionSkillUpdates m.type) "책임감" = 5 ∧
    ((m.type = "읽기" ∨ m.type = "쓰기") →
      lookupSkill (missionSkillUpdates m.type) "문해력" = 10) ∧
    ((m.type = "수리" ∨ m.type = "문제풀이") →
      lookupSkill (missionSkillUpdates m.type) "수리력" = 10) ∧
    (∀ st₂ : AppState,
      (∀ m₂ ∈ st₂.missions, m₂.isCompleted = false ∨ m₂.isStudentRewarded = true) →
      processRewards st₂ uid now' = st₂) ∧
    processRewards (processRewards st uid now) uid now' = processRewards st uid now := by
  have hskip : ∀ st₂ : AppState,
      (∀ m₂ ∈ st₂.missions, m₂.isCompleted = false ∨ m₂.isStudentRewarded = true) →
      processRewards st₂ uid now' = st₂ := by
    intro st₂ h₂
    have hfil : st₂.missions.filter
        (fun mm => mm.isCompleted && !mm.isStudentRewarded) = [] := by
      rw [List.filter_eq_nil_iff]
      intro a ha
      rcases h₂ a ha with hco | hrw
      · simp [hco]
      · simp [hrw]
    simp [processRewards, hfil]
  have hfil1 : st.missions.filter
      (fun mm => mm.isCompleted && !mm.isStudentRewarded) = [m] := by
    rw [hm]
    simp [hc, hr]
  have hstep : processRewards st uid now = settleMission st uid m now := by
    simp [processRewards, hfil1]
  have hmiss : (settleMission st uid m now).missions
      = [{ m with isStudentRewarded := true }] := by
    simp [settleMission, hm]
  have hpriv : (settleMission st uid m now).store.privateProfile uid
      = some (applyReward p (missionDelta m) now) := by
    simp [settleMission, updateStudentProfile, hp]
  have hpub : (settleMission st uid m now).store.publicProfile uid
      = some (applyReward p (missionDelta m) now) := by
    simp [settleMission, updateStudentProfile, hp]
  have hResp : lookupSkill (missionSkillUpdates m.type) "책임감" = 5 := by
    unfold missionSkillUpdates
    split
    · decide
    · split <;> decide
  have hidem : processRewards (processRewards st uid now) uid now'
      = processRewards st uid now := by
    apply hskip
    rw [hstep, hmiss]
    intro m₂ hm₂
    rw [List.mem_singleton] at hm₂
    subst hm₂
    exact Or.inr rfl
  refine ⟨hstep ▸ hmiss, hstep ▸ hpriv, hstep ▸ hpub, hResp, ?_, ?_, hskip, hidem⟩
  · intro hty
    rcases hty with h | h <;> rw [h] <;> decide
  · intro hty
    rcases hty with h | h <;> rw [h] <;> decide

/-- Witness for C1 at the sample state: the 읽기 mission is settled, the
mission is marked, and the second invocation changes nothing. -/
theorem processRewards_settles_once_witness :
    (processRewards sampleState "s1" 3).missions
      = [{ sampleMission with isStudentRewarded := true }] ∧
    (processRewards sampleState "s1" 3).store.privateProfile "s1"
      = some (applyReward sampleProfile (missionDelta sampleMission) 3) ∧
    lookupSkill (missionSkillUpdates sampleMission.type) "책임감" = 5 ∧
    lookupSkill (missionSkillUpdates sampleMission.type) "문해력" = 10 ∧
    processRewards (processRewards sampleState "s1" 3) "s1" 4
      = processRewards sampleState "s1" 3 := by
  obtain ⟨h1, h2, -, h4, h5, -, -, h8⟩ :=
    processRewards_settles_once sampleState "s1" sampleMission sampleProfile 3 4
      rfl rfl rfl (by decide)
  exact ⟨h1, h2, h4, h5 (Or.inl rfl), h8⟩

/-- Claim C6: toggling a date to true when it was previously false grants
exactly one fixed skill reward (자기 주도 학습 능력 +10, 책임감 +5) through
the progression engine; toggling to false, or to true when already true,
grants nothing; over the sequence false→true→false→true for the same date
the reward is granted exactly twice (the resulting store is the store with
the engine applied exactly twice). -/
theorem routine_toggle_reward (store : Store) (uid : String) (r : Routine)
    (today : String) (n₁ n₂ n₃ : Nat) :
    (lookupDay r.completedDays today = false →
      (handleToggleTodaysRoutineCompletion store uid r true today n₁).1
        = updateStudentProfile store uid routineDelta uid n₁) ∧
    ((handleToggleTodaysRoutineCompletion store uid r false today n₁).1 = store) ∧
    (lookupDay r.completedDays today = true →
      ∀ b, (handleToggleTodaysRoutineCompletion store uid r b today n₁).1 = store) ∧
    lookupSkill routineToggleReward "자기 주도 학습 능력" = 10 ∧
    lookupSkill routineToggleReward "책임감" = 5 ∧
    (lookupDay r.completedDays today = false →
      (toggleSeq store uid r today [(true, n₁), (false, n₂), (true, n₃)]).1
        = updateStudentProfile
            (updateStudentProfile store uid routineDelta uid n₁)
            uid routineDelta uid n₃) := by
  refine ⟨?_, ?_, ?_, by decide, by decide, ?_⟩
  · intro h
    simp [handleToggleTodaysRoutineCompletion, h, routineDelta]
  · simp [handleToggleTodaysRoutineCompletion]
  · intro h b
    simp [handleToggleTodaysRoutineCompletion, h]
  · intro h
    simp [toggleSeq, handleToggleTodaysRoutineCompletion, h, lookupDay_setDay,
      routineDelta]

/-- Witness for C6: a fresh routine grants on the first check, and the
false→true→false→true sequence applies the engine exactly twice. -/
theorem routine_toggle_reward_witness :
    (handleToggleTodaysRoutineCompletion sampleStore "s1" sampleRoutine true
        "2024-06-03" 1).1
      = updateStudentProfile sampleStore "s1" routineDelta "s1" 1 ∧
    (toggleSeq sampleStore "s1" sampleRoutine "2024-06-03"
        [(true, 1), (false, 2), (true, 3)]).1
      = updateStudentProfile
          (updateStudentProfile sampleStore "s1" routineDelta "s1" 1)
          "s1" routineDelta "s1" 3 := by
  obtain ⟨h1, -, -, -, -, h6⟩ :=
    routine_toggle_reward sampleStore "s1" sampleRoutine "2024-06-03" 1 2 3
  exact ⟨h1 rfl, h6 rfl⟩

theorem attemptLoop_succ (responses : Nat → ApiResponse) (fuel i delay : Nat)
    (delays : List Nat) :
    attemptLoop responses (fuel + 1) i delay delays =
      match attemptOutcome (responses i) with
      | .ok t => (some (.ok t), delays)
      | .error e =>
        if fuel = 0 then (some (.error e), delays)
        else attemptLoop responses fuel (i + 1) (delay * 2) (delays ++ [delay]) := rfl

/-- Claim C5: the retry wrapper makes at most 3 attempts; after each failed
non-final attempt it sleeps 1000ms then 2000ms (doubling, no jitter); an
attempt fails on a non-success status, a malformed body, or a missing
content field (the constructors of `ApiResponse` other than `ok`); if all
3 attempts fail the last attempt's error is the result; the first matching
response's text payload is returned. -/
theorem retry_wrapper_behavior (responses : Nat → ApiResponse) :
    (∀ t, attemptOutcome (responses 0) = .ok t →
      callGeminiAPIWithExponentialBackoff responses = (some (.ok t), [])) ∧
    (∀ e₀ t, attemptOutcome (responses 0) = .error e₀ →
      attemptOutcome (responses 1) = .ok t →
      callGeminiAPIWithExponentialBackoff responses = (some (.ok t), [1000])) ∧
    (∀ e₀ e₁ t, attemptOutcome (responses 0) = .error e₀ →
      attemptOutcome (responses 1) = .error e₁ →
      attemptOutcome (responses 2) = .ok t →
      callGeminiAPIWithExponentialBackoff responses
        = (some (.ok t), [1000, 2000])) ∧
    (∀ e₀ e₁ e₂, attemptOutcome (responses 0) = .error e₀ →
      attemptOutcome (responses 1) = .error e₁ →
      attemptOutcome (responses 2) = .error e₂ →
      callGeminiAPIWithExponentialBackoff responses
        = (some (.error e₂), [1000, 2000])) ∧
    (callGeminiAPIWithExponentialBackoff responses).2.length ≤ 2 := by
  have h1 : ∀ t, attemptOutcome (responses 0) = .ok t →
      callGeminiAPIWithExponentialBackoff responses = (some (.ok t), []) := by
    intro t h
    show attemptLoop responses (2 + 1) 0 1000 [] = _
    rw [attemptLoop_succ, h]
  have h2 : ∀ e₀ t, attemptOutcome (responses 0) = .error e₀ →
      attemptOutcome (responses 1) = .ok t →
      callGeminiAPIWithExponentialBackoff responses = (some (.ok t), [1000]) := by
    intro e₀ t h0 hb
    show attemptLoop responses (2 + 1) 0 1000 [] = _
    rw [attemptLoop_succ, h0]
    show attemptLoop responses (1 + 1) 1 2000 [1000] = _
    rw [attemptLoop_succ, hb]
  have h3 : ∀ e₀ e₁ t, attemptOutcome (responses 0) = .error e₀ →
      attemptOutcome (responses 1) = .error e₁ →
      attemptOutcome (responses 2) = .ok t →
      callGeminiAPIWithExponentialBackoff responses
        = (some (.ok t), [1000, 2000]) := by
    intro e₀ e₁ t h0 hb hc
    show attemptLoop responses (2 + 1) 0 1000 [] = _
    rw [attemptLoop_succ, h0]
    show attemptLoop responses (1 + 1) 1 2000 [1000] = _
    rw [attemptLoop_succ, hb]
    show attemptLoop responses (0 + 1) 2 4000 [1000, 2000] = _
    rw [attemptLoop_succ, hc]
  have h4 : ∀ e₀ e₁ e₂, attemptOutcome (responses 0) = .error e₀ →
      attemptOutcome (responses 1) = .error e₁ →
      attemptOutcome (responses 2) = .error e₂ →
      callGeminiAPIWithExponentialBackoff responses
        = (some (.error e₂), [1000, 2000]) := by
    intro e₀ e₁ e₂ h0 hb hc
    show attemptLoop responses (2 + 1) 0 1000 [] = _
    rw [attemptLoop_succ, h0]
    show attemptLoop responses (1 + 1) 1 2000 [1000] = _
    rw [attemptLoop_succ, hb]
    show attemptLoop responses (0 + 1) 2 4000 [1000, 2000] = _
    rw [attemptLoop_succ, hc]
    rfl
  refine ⟨h1, h2, h3, h4, ?_⟩
  rcases ho0 : attemptOutcome (responses 0) with e₀ | t₀
  · rcases hob : attemptOutcome (responses 1) with e₁ | t₁
    · rcases hoc : attemptOutcome (responses 2) with e₂ | t₂
      · rw [h4 e₀ e₁ e₂ ho0 hob hoc]; simp
      · rw [h3 e₀ e₁ t₂ ho0 hob hoc]; simp
    · rw [h2 e₀ t₁ ho0 hob]; simp
  · rw [h1 t₀ ho0]; simp

/-- Witness for C5: a stub failing twice then succeeding returns the text
after delays 1000 and 2000; an always-failing stub raises the last error
after the same two delays. -/
theorem retry_wrapper_behavior_witness :
    callGeminiAPIWithExponentialBackoff sampleResponses
      = (some (.ok "generated text"), [1000, 2000]) ∧
    callGeminiAPIWithExponentialBackoff failingResponses
      = (some (.error "Invalid Gemini API response structure."), [1000, 2000]) := by
  obtain ⟨-, -, hs3, -, -⟩ := retry_wrapper_behavior sampleResponses
  obtain ⟨-, -, -, hf4, -⟩ := retry_wrapper_behavior failingResponses
  exact ⟨hs3 _ _ _ rfl rfl rfl, hf4 _ _ _ rfl rfl rfl⟩

theorem lookupSkill_mem (s : List (String × Nat)) (k : String) (v : Nat) :
    (s.map Prod.fst).Nodup → (k, v) ∈ s → lookupSkill s k = v := by
  induction s with
  | nil => intro _ h; cases h
  | cons hd tl ih =>
    intro hnd hmem
    obtain ⟨k₀, v₀⟩ := hd
    simp only [List.map_cons, List.nodup_cons] at hnd
    rcases List.mem_cons.mp hmem with heq | hmem'
    · injection heq with hk hv
      subst hk; subst hv
      simp [lookupSkill]
    · have hk : k₀ ≠ k := fun hkk =>
        hnd.1 (by rw [hkk]; exact List.mem_map_of_mem Prod.fst hmem')
      simp only [lookupSkill, if_neg hk]
      exact ih hnd.2 hmem'

theorem lookupSkill_mergeSkillMaps_not_mem (payload old : List (String × Nat))
    (k : String) : k ∉ payload.map Prod.fst →
    lookupSkill (mergeSkillMaps old payload) k = lookupSkill old k := by
  induction payload generalizing old with
  | nil => intro _; rfl
  | cons hd tl ih =>
    intro h
    obtain ⟨k₀, v₀⟩ := hd
    simp only [List.map_cons, List.mem_cons, not_or] at h
    show lookupSkill (mergeSkillMaps (setSkill old k₀ v₀) tl) k = _
    rw [ih _ h.2, lookupSkill_setSkill, if_neg (fun hh => h.1 hh.symm)]

theorem lookupSkill_mergeSkillMaps_mem (payload old : List (String × Nat))
    (k : String) (v : Nat) :
    (payload.map Prod.fst).Nodup → (k, v) ∈ payload →
    lookupSkill (mergeSkillMaps old payload) k = v := by
  induction payload generalizing old with
  | nil => intro _ h; cases h
  | cons hd tl ih =>
    intro hnd hmem
    obtain ⟨k₀, v₀⟩ := hd
    simp only [List.map_cons, List.nodup_cons] at hnd
    show lookupSkill (mergeSkillMaps (setSkill old k₀ v₀) tl) k = v
    rcases List.mem_cons.mp hmem with heq | hmem'
    · injection heq with hk hv
      subst hk; subst hv
      rw [lookupSkill_mergeSkillMaps_not_mem tl _ k hnd.1,
        lookupSkill_setSkill, if_pos rfl]
    · exact ih _ hnd.2 hmem'

theorem mergeLoginPayload_xp (old : Option Profile) (uid inputID role : String)
    (plu : Option Nat) : (mergeLoginPayload old uid inputID role plu).xp = 0 := by
  cases old <;> rfl

theorem mergeLoginPayload_gold (old : Option Profile) (uid inputID role : String)
    (plu : Option Nat) : (mergeLoginPayload old uid inputID role plu).gold = 0 := by
  cases old <;> rfl

theorem mergeLoginPayload_level (old : Option Profile) (uid inputID role : String)
    (plu : Option Nat) : (mergeLoginPayload old uid inputID role plu).level = 1 := by
  cases old <;> rfl

theorem mergeLoginPayload_skill (old : Option Profile) (uid inputID role : String)
    (plu : Option Nat) (k : String) (v : Nat) (hk : (k, v) ∈ initialSkills) :
    lookupSkill (mergeLoginPayload old uid inputID role plu).skills k = v := by
  cases old with
  | none => exact lookupSkill_mem initialSkills k v (by decide) hk
  | some o => exact lookupSkill_mergeSkillMaps_mem initialSkills o.skills k v (by decide) hk

theorem mergeLoginPayload_lastUpdate (o : Profile) (uid inputID role : String) :
    (mergeLoginPayload (some o) uid inputID role none).lastUpdate = o.lastUpdate := rfl

/-- Claim C10: a login whose credentials match the account table writes the
initial payload (xp 0, gold 0, level 1, all six skills 0) over the stored
private profile — and, for students, over the public mirror — with a
field-level merge, so a repeated login resets the account's accumulated
xp, gold, level and skill scores; merge preserves only fields absent from
the payload (the private copy's stored update timestamp survives). -/
theorem login_resets_profile (store : Store) (uid inputID inputPassword : String)
    (now : Nat) (role : String)
    (hrole : loginRole inputID inputPassword = some role) :
    ∃ store', login store uid inputID inputPassword now = some (role, store') ∧
      (∃ p, store'.privateProfile uid = some p ∧
        p.xp = 0 ∧ p.gold = 0 ∧ p.level = 1 ∧
        lookupSkill p.skills "문해력" = 0 ∧ lookupSkill p.skills "수리력" = 0 ∧
        lookupSkill p.skills "창의력" = 0 ∧ lookupSkill p.skills "책임감" = 0 ∧
        lookupSkill p.skills "문제 해결 능력" = 0 ∧
        lookupSkill p.skills "자기 주도 학습 능력" = 0 ∧
        ∀ o, store.privateProfile uid = some o → p.lastUpdate = o.lastUpdate) ∧
      (role = "student" →
        ∃ q, store'.publicProfile uid = some q ∧
          q.xp = 0 ∧ q.gold = 0 ∧ q.level = 1 ∧
          lookupSkill q.skills "문해력" = 0 ∧ lookupSkill q.skills "수리력" = 0 ∧
          lookupSkill q.skills "창의력" = 0 ∧ lookupSkill q.skills "책임감" = 0 ∧
          lookupSkill q.skills "문제 해결 능력" = 0 ∧
          lookupSkill q.skills "자기 주도 학습 능력" = 0) := by
  have hmergefields : ∀ (old : Option Profile) (plu : Option Nat),
      (mergeLoginPayload old uid inputID role plu).xp = 0 ∧
      (mergeLoginPayload old uid inputID role plu).gold = 0 ∧
      (mergeLoginPayload old uid inputID role plu).level = 1 ∧
      lookupSkill (mergeLoginPayload old uid inputID role plu).skills "문해력" = 0 ∧
      lookupSkill (mergeLoginPayload old uid inputID role plu).skills "수리력" = 0 ∧
      lookupSkill (mergeLoginPayload old uid inputID role plu).skills "창의력" = 0 ∧
      lookupSkill (mergeLoginPayload old uid inputID role plu).skills "책임감" = 0 ∧
      lookupSkill (mergeLoginPayload old uid inputID role plu).skills
        "문제 해결 능력" = 0 ∧
      lookupSkill (mergeLoginPayload old uid inputID role plu).skills
        "자기 주도 학습 능력" = 0 := fun old plu =>
    ⟨mergeLoginPayload_xp _ _ _ _ _, mergeLoginPayload_gold _ _ _ _ _,
     mergeLoginPayload_level _ _ _ _ _,
     mergeLoginPayload_skill _ _ _ _ _ _ _ (by decide),
     mergeLoginPayload_skill _ _ _ _ _ _ _ (by decide),
     mergeLoginPayload_skill _ _ _ _ _ _ _ (by decide),
     mergeLoginPayload_skill _ _ _ _ _ _ _ (by decide),
     mergeLoginPayload_skill _ _ _ _ _ _ _ (by decide),
     mergeLoginPayload_skill _ _ _ _ _ _ _ (by decide)⟩
  have hlast : ∀ o, store.privateProfile uid = some o →
      (mergeLoginPayload (store.privateProfile uid) uid inputID role none).lastUpdate
        = o.lastUpdate := by
    intro o ho
    rw [ho]
    exact mergeLoginPayload_lastUpdate o uid inputID role
  have hprivpart : ∃ p,
      some (mergeLoginPayload (store.privateProfile uid) uid inputID role none)
        = some p ∧
      p.xp = 0 ∧ p.gold = 0 ∧ p.level = 1 ∧
      lookupSkill p.skills "문해력" = 0 ∧ lookupSkill p.skills "수리력" = 0 ∧
      lookupSkill p.skills "창의력" = 0 ∧ lookupSkill p.skills "책임감" = 0 ∧
      lookupSkill p.skills "문제 해결 능력" = 0 ∧
      lookupSkill p.skills "자기 주도 학습 능력" = 0 ∧
      ∀ o, store.privateProfile uid = some o → p.lastUpdate = o.lastUpdate := by
    obtain ⟨h1, h2, h3, h4, h5, h6, h7, h8, h9⟩ :=
      hmergefields (store.privateProfile uid) none
    exact ⟨_, rfl, h1, h2, h3, h4, h5, h6, h7, h8, h9, hlast⟩
  obtain ⟨p, hp, hprest⟩ := hprivpart
  by_cases hs : role = "student"
  · refine ⟨⟨fun u => if u = uid then
        some (mergeLoginPayload (store.privateProfile uid) uid inputID role none)
      else store.privateProfile u,
      fun u => if u = uid then
        some (mergeLoginPayload (store.publicProfile uid) uid inputID role (some now))
      else store.publicProfile u⟩, ?_, ⟨p, by simpa using hp, hprest⟩, fun _ => ?_⟩
    · simp [login, hrole, hs]
    · obtain ⟨h1, h2, h3, h4, h5, h6, h7, h8, h9⟩ :=
        hmergefields (store.publicProfile uid) (some now)
      exact ⟨_, by simp, h1, h2, h3, h4, h5, h6, h7, h8, h9⟩
  · refine ⟨⟨fun u => if u = uid then
        some (mergeLoginPayload (store.privateProfile uid) uid inputID role none)
      else store.privateProfile u, store.publicProfile⟩,
      ?_, ⟨p, by simpa using hp, hprest⟩, fun hstud => absurd hstud hs⟩
    simp [login, hrole, hs]

/-- Witness for C10: logging in again as 김대수 over an accumulated profile
(xp 500, gold 300, level 3, 문해력 40) resets the numbers to their initial
values while preserving the stored timestamp the payload does not carry. -/
theorem login_resets_profile_witness :
    ∃ store', login accumulatedStore "u1" "김대수" "1024" 5
        = some ("student", store') ∧
      ∃ p, store'.privateProfile "u1" = some p ∧
        p.xp = 0 ∧ p.gold = 0 ∧ p.level = 1 ∧
        lookupSkill p.skills "문해력" = 0 ∧ p.lastUpdate = 9 := by
  obtain ⟨store', hl, ⟨p, hp, hxp, hgold, hlevel, hlit, -, -, -, -, -, hlast⟩, -⟩ :=
    login_resets_profile accumulatedStore "u1" "김대수" "1024" 5 "student" (by decide)
  exact ⟨store', hl, p, hp, hxp, hgold, hlevel, hlit,
    hlast ⟨"u1", "student", "김대수", 500, 300, 3, [("문해력", 40)], 9⟩ (by decide)⟩

end ClassroomBoard
